import Mathlib

/-!
Verification of the `Wt::Http::Client` asynchronous HTTP client
(`src/unnamed/part_003`, header `Wt/Http/Client`).

The repository ships only the class declaration; the member-function
bodies (`Client.C`) are not part of the sources at hand.  The
definitions below are therefore a shallow embedding modelled from the
specification (`spec.md`), keeping the names and the data layout of the
declarations that are present (`Client::URL` with fields `protocol`,
`host`, `port`, `path`; `get` / `post` / `request` / `abort`;
`setTimeout` / `setMaximumResponseSize` / `setSslVerifyFile` /
`setSslVerifyPath`).  Asynchronous I/O is embedded as a deterministic
step function over an explicit connection state driven by a list of
externally supplied events; discrete ticks stand for seconds of silence
on the active I/O step.
-/

namespace WtHttp

/-- HTTP request method.  The header documents the client for GET and
POST; the spec's `RequestSpec.method` is `enum\x7bGET,POST,...\x7d`. -/
inductive Method : Type
  | Get : Method
  | Post : Method
  | Put : Method
  | DeleteM : Method
deriving DecidableEq, Repr

/-- Modelled from the spec: `Message` is `status` (absent for requests),
an ordered header sequence (insertion order preserved, duplicates
allowed) and a body byte sequence (`Wt/Http/Message` itself is not among
the sources). -/
structure Message : Type where
  status : Option Nat
  headers : List (String × String)
  body : String
deriving DecidableEq, Repr

/-- The empty request message. -/
def Message.empty : Message := ⟨none, [], ""⟩

/-- The `Client::URL` struct from the header (`part_003`, lines
271-278): fields `protocol`, `host`, `port`, `path`. -/
structure URL : Type where
  protocol : String
  host : String
  port : Nat
  path : String
deriving DecidableEq, Repr

/-- Split a character list at the first occurrence of `"://"`:
returns the part before and the part after, or `none` when the marker
is absent. -/
def splitOnScheme : List Char → Option (List Char × List Char)
  | [] => none
  | c :: rest =>
    if c = ':' ∧ rest.take 2 = ['/', '/'] then some ([], rest.drop 2)
    else
      match splitOnScheme rest with
      | some (pre, post) => some (c :: pre, post)
      | none => none

/-- Split the part after the scheme at the first `'/'`: the authority
(host and optional port) and the path (which keeps its leading `'/'`;
empty when absent). -/
def splitAuthority : List Char → List Char × List Char
  | [] => ([], [])
  | c :: rest =>
    if c = '/' then ([], c :: rest)
    else
      let p := splitAuthority rest
      (c :: p.1, p.2)

/-- Split the authority at the first `':'`: the host and, when a colon
is present, the raw port characters after it. -/
def splitPort : List Char → List Char × Option (List Char)
  | [] => ([], none)
  | c :: rest =>
    if c = ':' then ([], some rest)
    else
      let p := splitPort rest
      (c :: p.1, p.2)

/-- Lower-case every character (scheme matching is case-insensitive). -/
def toLowerList (l : List Char) : List Char := l.map Char.toLower

/-- Decimal value of a digit list. -/
def digitsVal (cs : List Char) : Nat :=
  cs.foldl (fun a c => a * 10 + (c.toNat - 48)) 0

/-- Modelled from the spec: an explicit port must be numeric (a
non-numeric port yields `InvalidUrl`) and the resulting port lies in
1..65535 (data-model invariant on `Url.port`). -/
def parsePort (cs : List Char) : Option Nat :=
  if cs = [] then none
  else if cs.all Char.isDigit then
    let n := digitsVal cs
    if 1 ≤ n ∧ n ≤ 65535 then some n else none
  else none

/-- Default port of a recognized (already lower-cased) scheme: 80 for
`http`, 443 for `https`, nothing for any other scheme. -/
def schemeDefaultPort (low : List Char) : Option Nat :=
  if low = "http".data then some 80
  else if low = "https".data then some 443
  else none

/-- Modelled from the spec: `Client::parseUrl` (declared in `part_003`,
line 286; body not among the sources).  Recognizes only the `http` and
`https` schemes, case-insensitively; default port 80 / 443 when
omitted; the host must be non-empty; the path defaults to `"/"` when
omitted and is otherwise passed through verbatim (no percent-decoding
or normalization). -/
def parseUrl (url : String) : Option URL :=
  match splitOnScheme url.data with
  | none => none
  | some (schemeCs, rest) =>
    match schemeDefaultPort (toLowerList schemeCs) with
    | none => none
    | some dp =>
      if (splitPort (splitAuthority rest).1).1 = [] then none
      else
        match (match (splitPort (splitAuthority rest).1).2 with
               | none => some dp
               | some pcs => parsePort pcs : Option Nat) with
        | none => none
        | some p =>
          some { protocol := String.mk (toLowerList schemeCs),
                 host := String.mk (splitPort (splitAuthority rest).1).1,
                 port := p,
                 path := if (splitAuthority rest).2 = [] then "/"
                         else String.mk (splitAuthority rest).2 }

/-- Error taxonomy of the spec (section 7); `aborted` is the kind
reported on cancellation. -/
inductive ErrorKind : Type
  | invalidUrl : ErrorKind
  | unsupportedScheme : ErrorKind
  | resolveFailed : ErrorKind
  | connectFailed : ErrorKind
  | tlsHandshakeFailed : ErrorKind
  | writeFailed : ErrorKind
  | readFailed : ErrorKind
  | parseError : ErrorKind
  | responseTooLarge : ErrorKind
  | timeout : ErrorKind
  | aborted : ErrorKind
deriving DecidableEq, Repr

/-- A terminal notification delivered through the `done()` signal:
either a successful `Message` (error code 0) or an error kind. -/
inductive Outcome : Type
  | done : Message → Outcome
  | failed : ErrorKind → Outcome
deriving DecidableEq, Repr

/-- Transport variant, selected once from the URL scheme: plaintext
TCP (`Client::TcpImpl`) or TLS over TCP (`Client::SslImpl`).  The TLS
variant carries the verification settings snapshotted from the client;
the plain variant carries nothing. -/
inductive Transport : Type
  | plain : Transport
  | tls : String → String → Transport
deriving DecidableEq, Repr

/-- Modelled from the spec: the Connection protocol states (section
4.3); `Client::Impl` is not among the sources. -/
inductive ConnState : Type
  | idle : ConnState
  | resolving : ConnState
  | connecting : ConnState
  | tlsHandshake : ConnState
  | writing : ConnState
  | readingStatusLine : ConnState
  | readingHeaders : ConnState
  | readingBody : ConnState
  | done : ConnState
  | failed : ErrorKind → ConnState
  | aborted : ConnState
deriving DecidableEq, Repr

/-- Terminal states: `done`, every `failed` kind, and `aborted`. -/
def ConnState.isTerminal : ConnState → Bool
  | .done => true
  | .failed _ => true
  | .aborted => true
  | _ => false

/-- States during which response bytes are being accumulated (the
size cap covers status line, headers and body). -/
def ConnState.isReading : ConnState → Bool
  | .readingStatusLine => true
  | .readingHeaders => true
  | .readingBody => true
  | _ => false

/-- Successor state when the current I/O step completes; the TLS
handshake step is inserted only for the TLS transport. -/
def nextState (t : Transport) : ConnState → ConnState
  | .resolving => .connecting
  | .connecting =>
    match t with
    | .plain => .writing
    | .tls _ _ => .tlsHandshake
  | .tlsHandshake => .writing
  | .writing => .readingStatusLine
  | .readingStatusLine => .readingHeaders
  | .readingHeaders => .readingBody
  | .readingBody => .done
  | s => s

/-- Modelled from the spec: one in-flight Connection.  `timeoutS` and
`maxSize` are snapshotted from the client configuration when the
request starts; `buffer` is the response accumulator; `silence` counts
ticks (seconds) without progress on the active I/O step; `notifs` is
the list of terminal notifications delivered so far. -/
structure Conn : Type where
  transport : Transport
  method : Method
  url : URL
  reqMsg : Message
  state : ConnState
  timeoutS : Nat
  maxSize : Nat
  buffer : String
  silence : Nat
  transportOpen : Bool
  notifs : List Outcome
deriving DecidableEq, Repr

/-- A freshly started Connection (`Idle → Resolving` on `start`). -/
def Conn.start (t : Transport) (m : Method) (u : URL) (req : Message)
    (timeoutS maxSize : Nat) : Conn :=
  { transport := t, method := m, url := u, reqMsg := req,
    state := .resolving, timeoutS := timeoutS, maxSize := maxSize,
    buffer := "", silence := 0, transportOpen := true, notifs := [] }

/-- External events driving a Connection: completion of the current
I/O step, arrival of response bytes, partial progress on a
connect/write step, one second of silence, a transport or parse error,
and an `abort()` call. -/
inductive Event : Type
  | complete : Event
  | bytesE : String → Event
  | progressE : Event
  | tick : Event
  | ioError : ErrorKind → Event
  | abortEv : Event
deriving DecidableEq, Repr

/-- Transition to `Failed kind`: transport closed, partial buffer
discarded, the single failure notification appended. -/
def Conn.fail (c : Conn) (k : ErrorKind) : Conn :=
  { c with state := .failed k, transportOpen := false, buffer := "",
           notifs := c.notifs ++ [Outcome.failed k] }

/-- One deterministic step of the Connection state machine, modelled
from the spec's transition list (section 4.3).  Terminal states absorb
every event (in particular a repeated `abort()` or an abort after
completion is a no-op).  Reaching a terminal state closes the
transport and appends exactly one notification. -/
def Conn.applyEvent (c : Conn) (e : Event) : Conn :=
  if c.state.isTerminal then c
  else
    match e with
    | .complete =>
      let s := nextState c.transport c.state
      if s = ConnState.done then
        { c with state := .done, transportOpen := false, silence := 0,
                 notifs := c.notifs ++
                   [Outcome.done ⟨none, [], c.buffer⟩] }
      else { c with state := s, silence := 0 }
    | .bytesE chunk =>
      if chunk = "" then c
      else if c.state.isReading then
        if c.maxSize < c.buffer.length + chunk.length then
          c.fail .responseTooLarge
        else { c with buffer := c.buffer ++ chunk, silence := 0 }
      else { c with silence := 0 }
    | .progressE => { c with silence := 0 }
    | .tick =>
      if c.timeoutS ≤ c.silence + 1 then c.fail .timeout
      else { c with silence := c.silence + 1 }
    | .ioError k => c.fail k
    | .abortEv =>
      { c with state := .aborted, transportOpen := false, buffer := "",
               notifs := c.notifs ++ [Outcome.failed .aborted] }

/-- Run a Connection over a list of events. -/
def Conn.run (c : Conn) (es : List Event) : Conn :=
  es.foldl Conn.applyEvent c

/-- The `Client` object: configuration fields as in the header
(`timeout_`, `maximumResponseSize_`, `verifyFile_`, `verifyPath_`,
`part_003` lines 292-294) plus the in-flight connection (`impl_`). -/
structure Client : Type where
  timeout_ : Nat
  maximumResponseSize_ : Nat
  verifyFile_ : String
  verifyPath_ : String
  conn : Option Conn
deriving DecidableEq, Repr

/-- Modelled from the spec: a newly constructed client — defaults 10
seconds and 64 KiB (header doc comments at `part_003` lines 127 and
144), no SSL verification settings, no in-flight request. -/
def Client.init : Client :=
  { timeout_ := 10, maximumResponseSize_ := 65536,
    verifyFile_ := "", verifyPath_ := "", conn := none }

/-- `Client::timeout` accessor (`part_003` line 135,
`return timeout_`). -/
def Client.timeout (c : Client) : Nat := c.timeout_

/-- `Client::maximumResponseSize` accessor (`part_003` line 152,
`return maximumResponseSize_`). -/
def Client.maximumResponseSize (c : Client) : Nat :=
  c.maximumResponseSize_

/-- `Client::setTimeout` (`part_003` line 129). -/
def Client.setTimeout (c : Client) (seconds : Nat) : Client :=
  { c with timeout_ := seconds }

/-- `Client::setMaximumResponseSize` (`part_003` line 146). -/
def Client.setMaximumResponseSize (c : Client) (bytes : Nat) : Client :=
  { c with maximumResponseSize_ := bytes }

/-- `Client::setSslVerifyFile` (`part_003` line 161). -/
def Client.setSslVerifyFile (c : Client) (verifyFile : String) : Client :=
  { c with verifyFile_ := verifyFile }

/-- `Client::setSslVerifyPath` (`part_003` line 171). -/
def Client.setSslVerifyPath (c : Client) (verifyPath : String) : Client :=
  { c with verifyPath_ := verifyPath }

/-- The client is busy while it holds a non-terminal connection
(single-flight invariant). -/
def Client.busy (c : Client) : Bool :=
  match c.conn with
  | none => false
  | some cn => !cn.state.isTerminal

/-- Modelled from the spec: `Client::request` (`part_003` line 237;
body not among the sources).  Rejects — returning `false` with no state
change — when the client is already processing a request, when the URL
fails to parse, or when the scheme is unsupported; otherwise selects
the transport variant from the scheme, snapshots the configuration
into a fresh started Connection, and returns `true`. -/
def Client.request (c : Client) (m : Method) (url : String)
    (msg : Message) : Bool × Client :=
  if c.busy then (false, c)
  else
    match parseUrl url with
    | none => (false, c)
    | some u =>
      if u.protocol = "http" then
        (true, { c with conn := some (Conn.start .plain m u msg
                    c.timeout_ c.maximumResponseSize_) })
      else if u.protocol = "https" then
        (true, { c with conn := some (Conn.start
                    (.tls c.verifyFile_ c.verifyPath_) m u msg
                    c.timeout_ c.maximumResponseSize_) })
      else (false, c)

/-- `Client::get(url)` (`part_003` line 187). -/
def Client.get (c : Client) (url : String) : Bool × Client :=
  c.request .Get url Message.empty

/-- `Client::get(url, headers)` (`part_003` line 205). -/
def Client.getWithHeaders (c : Client) (url : String)
    (headers : List (String × String)) : Bool × Client :=
  c.request .Get url ⟨none, headers, ""⟩

/-- `Client::post(url, message)` (`part_003` line 221). -/
def Client.post (c : Client) (url : String) (msg : Message) :
    Bool × Client :=
  c.request .Post url msg

/-- `Client::abort` (`part_003` line 245): cancels the in-flight
connection; a no-op when idle. -/
def Client.abort (c : Client) : Client :=
  { c with conn := c.conn.map (fun cn => cn.applyEvent .abortEv) }

/-- Modelled from the spec: the destructor (`part_003` lines 113-119,
"If the client is still busy, the current request is aborted") — the
final state of the pending connection when the client is destroyed. -/
def Client.destroy (c : Client) : Option Conn :=
  match c.conn with
  | none => none
  | some cn => some (cn.applyEvent .abortEv)

/-- CRLF line terminator. -/
def crlf : String := "\r\n"

/-- Request-method token on the request line. -/
def methodText : Method → String
  | .Get => "GET"
  | .Post => "POST"
  | .Put => "PUT"
  | .DeleteM => "DELETE"

/-- Modelled from the spec: `serializeRequest` (section 4.4) — the
request line, a `Host` header derived from the URL, the caller's
headers in insertion order, a `Content-Length` header when the body is
non-empty, a blank line, then the body. -/
def serializeRequest (m : Method) (u : URL) (msg : Message) : String :=
  let s1 := methodText m ++ " " ++ u.path ++ " HTTP/1.1" ++ crlf
  let s2 := s1 ++ "Host: " ++ u.host ++ crlf
  let s3 := msg.headers.foldl
    (fun acc h => acc ++ h.1 ++ ": " ++ h.2 ++ crlf) s2
  let s4 := if msg.body = "" then s3
    else s3 ++ "Content-Length: " ++ toString msg.body.length ++ crlf
  s4 ++ crlf ++ msg.body

/-- Concatenation of a list of byte strings. -/
def concatStrings (l : List String) : String := l.foldr (· ++ ·) ""

/-- Invariant of every started connection: the accumulated response
never exceeds the size cap; a non-terminal connection has delivered no
notification; a terminal connection has delivered exactly one and has
closed its transport. -/
def ConnInv (c : Conn) : Prop :=
  c.buffer.length ≤ c.maxSize
  ∧ (c.state.isTerminal = false → c.notifs = [])
  ∧ (c.state.isTerminal = true →
      c.notifs.length = 1 ∧ c.transportOpen = false)

instance (c : Conn) : Decidable (ConnInv c) := by
  unfold ConnInv; infer_instance

/-- A trickled response: `n` repetitions of `k` seconds of silence
followed by one received byte, then the completion of the body. -/
def trickle (k : Nat) : Nat → List Event
  | 0 => [Event.complete]
  | n + 1 => List.replicate k Event.tick ++ Event.bytesE "." :: trickle k n

/-! ### Sanity checks on concrete inputs -/

example : parseUrl "http://example.com" =
    some ⟨"http", "example.com", 80, "/"⟩ := by decide
example : parseUrl "HTTPS://a.b:8443/x?q=1" =
    some ⟨"https", "a.b", 8443, "/x?q=1"⟩ := by decide
example : parseUrl "ftp://example.com" = none := by decide
example : parseUrl "http://:80/" = none := by decide
example : parseUrl "http://h:80a/" = none := by decide
example : serializeRequest .Get ⟨"http", "h", 80, "/p"⟩ Message.empty =
    "GET /p HTTP/1.1\r\nHost: h\r\n\r\n" := by decide
example : serializeRequest .Post ⟨"http", "h", 80, "/"⟩
      ⟨none, [("A", "b")], "xyz"⟩ =
    "POST / HTTP/1.1\r\nHost: h\r\nA: b\r\nContent-Length: 3\r\n\r\nxyz"
    := by decide

/-! ### Lemmas about the URL parser -/

theorem splitOnScheme_marker (pre rest : List Char) (h : ':' ∉ pre) :
    splitOnScheme (pre ++ ':' :: '/' :: '/' :: rest) = some (pre, rest) := by
  induction pre with
  | nil => simp [splitOnScheme]
  | cons c cs ih =>
    have hc : ¬(c = ':') := fun hh => h (by simp [hh])
    have h' : ':' ∉ cs := fun hh => h (List.mem_cons_of_mem _ hh)
    simp only [List.cons_append, splitOnScheme, List.append_eq]
    rw [if_neg (fun hand => hc hand.1), ih h']

theorem splitAuthority_no_slash (l : List Char) (h : '/' ∉ l) :
    splitAuthority l = (l, []) := by
  induction l with
  | nil => rfl
  | cons c cs ih =>
    have hc : ¬(c = '/') := fun hh => h (by simp [hh])
    have h' : '/' ∉ cs := fun hh => h (List.mem_cons_of_mem _ hh)
    simp only [splitAuthority]
    rw [if_neg hc, ih h']

theorem splitAuthority_slash (a p : List Char) (h : '/' ∉ a) :
    splitAuthority (a ++ '/' :: p) = (a, '/' :: p) := by
  induction a with
  | nil => simp [splitAuthority]
  | cons c cs ih =>
    have hc : ¬(c = '/') := fun hh => h (by simp [hh])
    have h' : '/' ∉ cs := fun hh => h (List.mem_cons_of_mem _ hh)
    simp only [List.cons_append, splitAuthority, List.append_eq]
    rw [if_neg hc, ih h']

theorem splitPort_no_colon (l : List Char) (h : ':' ∉ l) :
    splitPort l = (l, none) := by
  induction l with
  | nil => rfl
  | cons c cs ih =>
    have hc : ¬(c = ':') := fun hh => h (by simp [hh])
    have h' : ':' ∉ cs := fun hh => h (List.mem_cons_of_mem _ hh)
    simp only [splitPort]
    rw [if_neg hc, ih h']

theorem splitPort_colon (a p : List Char) (h : ':' ∉ a) :
    splitPort (a ++ ':' :: p) = (a, some p) := by
  induction a with
  | nil => simp [splitPort]
  | cons c cs ih =>
    have hc : ¬(c = ':') := fun hh => h (by simp [hh])
    have h' : ':' ∉ cs := fun hh => h (List.mem_cons_of_mem _ hh)
    simp only [List.cons_append, splitPort, List.append_eq]
    rw [if_neg hc, ih h']

theorem schemeDefaultPort_some (low : List Char) (dp : Nat)
    (h : schemeDefaultPort low = some dp) :
    (low = "http".data ∧ dp = 80) ∨ (low = "https".data ∧ dp = 443) := by
  unfold schemeDefaultPort at h
  split at h
  · exact Or.inl ⟨by assumption, by injection h; omega⟩
  · split at h
    · exact Or.inr ⟨by assumption, by injection h; omega⟩
    · exact absurd h (by simp)

/-- A scheme whose lower-casing is `http` or `https` contains no
colon. -/
theorem scheme_no_colon (l : List Char)
    (h : toLowerList l = "http".data ∨ toLowerList l = "https".data) :
    ':' ∉ l := by
  intro hm
  have h1 : Char.toLower ':' ∈ toLowerList l := List.mem_map_of_mem _ hm
  have h2 : Char.toLower ':' = ':' := by decide
  rw [h2] at h1
  rcases h with h | h <;> rw [h] at h1 <;> revert h1 <;> decide

/-- Every successfully parsed URL has scheme `http` or `https` and a
non-empty host. -/
theorem parseUrl_protocol_host (s : String) (u : URL)
    (h : parseUrl s = some u) :
    (u.protocol = "http" ∨ u.protocol = "https") ∧ u.host ≠ "" := by
  unfold parseUrl at h
  split at h
  · exact absurd h (by simp)
  · rename_i schemeCs rest _
    split at h
    · exact absurd h (by simp)
    · rename_i dp hdp
      split at h
      · exact absurd h (by simp)
      · rename_i hne
        split at h
        · exact absurd h (by simp)
        · rename_i p _
          injection h with h
          subst h
          constructor
          · rcases schemeDefaultPort_some _ _ hdp with ⟨hl, _⟩ | ⟨hl, _⟩
            · exact Or.inl (by simp [hl])
            · exact Or.inr (by simp [hl])
          · intro habs
            exact hne (congrArg String.data habs)

/-- Computation of `parseUrl` on a URL assembled from a recognized
scheme, a host and an optional path: host passed through, default
port, path verbatim with `"/"` as the default. -/
theorem parseUrl_build (sch host path : String) (dp : Nat)
    (hsch : schemeDefaultPort (toLowerList sch.data) = some dp)
    (hhost : host ≠ "") (hc : ':' ∉ host.data) (hs : '/' ∉ host.data)
    (hpath : path = "" ∨ ∃ r, path.data = '/' :: r) :
    parseUrl (sch ++ "://" ++ host ++ path) =
      some { protocol := String.mk (toLowerList sch.data), host := host,
             port := dp, path := if path = "" then "/" else path } := by
  have hcs : ':' ∉ sch.data :=
    scheme_no_colon _ ((schemeDefaultPort_some _ _ hsch).imp And.left And.left)
  have hne : host.data ≠ [] := by
    intro hh
    exact hhost (by cases host; simp_all)
  have h0 : ("://" : String).data = [':', '/', '/'] := rfl
  have hdata : (sch ++ "://" ++ host ++ path).data
      = sch.data ++ ':' :: '/' :: '/' :: (host.data ++ path.data) := by
    simp only [String.data_append, h0, List.append_assoc, List.cons_append,
      List.nil_append]
  rcases hpath with hp | ⟨r, hp⟩
  · subst hp
    have hsa : splitAuthority (host.data ++ ("" : String).data)
        = (host.data, []) := by
      have he : host.data ++ ("" : String).data = host.data := by simp
      rw [he]
      exact splitAuthority_no_slash host.data hs
    unfold parseUrl
    rw [hdata, splitOnScheme_marker _ _ hcs]
    simp only [hsa, hsch, splitPort_no_colon host.data hc]
    simp [hne]
  · have hsa : splitAuthority (host.data ++ path.data)
        = (host.data, path.data) := by
      rw [hp]
      exact splitAuthority_slash host.data r hs
    have hpne : ¬(path = "") := by
      intro hh
      rw [hh] at hp
      exact absurd hp (by simp)
    have hdne : ¬(path.data = []) := by rw [hp]; simp
    unfold parseUrl
    rw [hdata, splitOnScheme_marker _ _ hcs]
    simp only [hsa, hsch, splitPort_no_colon host.data hc]
    simp [hne, hpne, hdne]

/-- A URL with an explicit non-numeric port fails to parse. -/
theorem parseUrl_bad_port (sch host portS : String) (dp : Nat)
    (hsch : schemeDefaultPort (toLowerList sch.data) = some dp)
    (hc : ':' ∉ host.data) (hs : '/' ∉ host.data)
    (hsp : '/' ∉ portS.data)
    (hbad : ∃ ch, ch ∈ portS.data ∧ ch.isDigit = false) :
    parseUrl (sch ++ "://" ++ host ++ ":" ++ portS) = none := by
  have hcs : ':' ∉ sch.data :=
    scheme_no_colon _ ((schemeDefaultPort_some _ _ hsch).imp And.left And.left)
  have h0 : ("://" : String).data = [':', '/', '/'] := rfl
  have h1 : (":" : String).data = [':'] := rfl
  have hdata : (sch ++ "://" ++ host ++ ":" ++ portS).data
      = sch.data ++ ':' :: '/' :: '/' :: (host.data ++ ':' :: portS.data) := by
    simp only [String.data_append, h0, h1, List.append_assoc,
      List.cons_append, List.nil_append]
  have hnoslash : '/' ∉ host.data ++ ':' :: portS.data := by
    intro hm
    rw [List.mem_append, List.mem_cons] at hm
    rcases hm with hm | hm | hm
    · exact hs hm
    · exact absurd hm (by decide)
    · exact hsp hm
  have hsa : splitAuthority (host.data ++ ':' :: portS.data)
      = (host.data ++ ':' :: portS.data, []) :=
    splitAuthority_no_slash _ hnoslash
  have hspl : splitPort (host.data ++ ':' :: portS.data)
      = (host.data, some portS.data) := splitPort_colon _ _ hc
  have hpp : parsePort portS.data = none := by
    obtain ⟨ch, hm, hd⟩ := hbad
    have hne2 : ¬(portS.data = []) := by
      intro hh
      rw [hh] at hm
      exact absurd hm (List.not_mem_nil _)
    have hnall : ¬(portS.data.all Char.isDigit = true) := by
      intro hall
      rw [List.all_eq_true] at hall
      have := hall ch hm
      rw [hd] at this
      exact absurd this (by decide)
    unfold parsePort
    rw [if_neg hne2, if_neg hnall]
  unfold parseUrl
  rw [hdata, splitOnScheme_marker _ _ hcs]
  simp only [hsa, hsch, hspl, hpp]
  split <;> rfl

/-! ### Basic lemmas about the connection step function -/

theorem applyEvent_of_terminal (c : Conn) (e : Event)
    (h : c.state.isTerminal = true) : c.applyEvent e = c := by
  simp [Conn.applyEvent, h]

theorem run_nil (c : Conn) : c.run [] = c := rfl

theorem run_cons (c : Conn) (e : Event) (es : List Event) :
    c.run (e :: es) = (c.applyEvent e).run es := rfl

theorem run_append (c : Conn) (as bs : List Event) :
    c.run (as ++ bs) = (c.run as).run bs := by
  simp [Conn.run, List.foldl_append]

theorem run_of_terminal (c : Conn) (es : List Event)
    (h : c.state.isTerminal = true) : c.run es = c := by
  induction es with
  | nil => rfl
  | cons e es ih => rw [run_cons, applyEvent_of_terminal c e h]; exact ih

/-- A step never changes the configuration snapshot (timeout,
maximum response size, transport) of the connection. -/
theorem applyEvent_config (c : Conn) (e : Event) :
    (c.applyEvent e).timeoutS = c.timeoutS
    ∧ (c.applyEvent e).maxSize = c.maxSize
    ∧ (c.applyEvent e).transport = c.transport := by
  cases e <;> simp only [Conn.applyEvent, Conn.fail] <;>
    (repeat' split) <;> simp

theorem run_config (c : Conn) (es : List Event) :
    (c.run es).timeoutS = c.timeoutS
    ∧ (c.run es).maxSize = c.maxSize
    ∧ (c.run es).transport = c.transport := by
  induction es generalizing c with
  | nil => exact ⟨rfl, rfl, rfl⟩
  | cons e es ih =>
    rw [run_cons]
    obtain ⟨h1, h2, h3⟩ := ih (c.applyEvent e)
    obtain ⟨g1, g2, g3⟩ := applyEvent_config c e
    exact ⟨h1.trans g1, h2.trans g2, h3.trans g3⟩

/-- A reading state is never terminal. -/
theorem isReading_not_terminal (s : ConnState)
    (h : s.isReading = true) : s.isTerminal = false := by
  cases s <;> simp_all [ConnState.isReading, ConnState.isTerminal]

/-- The successor of a non-terminal state is `done` or again
non-terminal. -/
theorem nextState_terminal (t : Transport) (s : ConnState)
    (h : s.isTerminal = false) :
    nextState t s = ConnState.done
    ∨ (nextState t s).isTerminal = false := by
  cases s <;> cases t <;> simp_all [nextState, ConnState.isTerminal]

theorem connInv_start (t : Transport) (m : Method) (u : URL)
    (req : Message) (timeoutS maxSize : Nat) :
    ConnInv (Conn.start t m u req timeoutS maxSize) := by
  refine ⟨?_, fun _ => rfl, fun h => by simp [Conn.start, ConnState.isTerminal] at h⟩
  simp [Conn.start]

theorem connInv_fail (c : Conn) (k : ErrorKind) (h : ConnInv c)
    (hnt : c.state.isTerminal = false) : ConnInv (c.fail k) := by
  obtain ⟨h1, h2, _h3⟩ := h
  refine ⟨by simp [Conn.fail], ?_, ?_⟩
  · intro hf; simp [Conn.fail, ConnState.isTerminal] at hf
  · intro _
    simp [Conn.fail, h2 hnt]

theorem connInv_applyEvent (c : Conn) (e : Event) (h : ConnInv c) :
    ConnInv (c.applyEvent e) := by
  by_cases ht : c.state.isTerminal = true
  · rw [applyEvent_of_terminal c e ht]; exact h
  · have hnt : c.state.isTerminal = false := by
      revert ht; cases c.state.isTerminal <;> simp
    obtain ⟨h1, h2, h3⟩ := h
    have hn : c.notifs = [] := h2 hnt
    cases e with
    | complete =>
      simp only [Conn.applyEvent, hnt, Bool.false_eq_true, if_false]
      split
      · exact ⟨h1, by intro hf; simp [ConnState.isTerminal] at hf,
          fun _ => by simp [hn]⟩
      · rcases nextState_terminal c.transport c.state hnt with hd | hd
        · simp_all
        · exact ⟨h1, fun _ => hn, fun habs => by simp_all⟩
    | bytesE chunk =>
      simp only [Conn.applyEvent, hnt, Bool.false_eq_true, if_false]
      split
      · exact ⟨h1, h2, h3⟩
      · split
        · split
          · exact connInv_fail c .responseTooLarge ⟨h1, h2, h3⟩ hnt
          · refine ⟨?_, fun _ => hn, fun habs => by simp_all⟩
            simp only [String.length_append]
            omega
        · exact ⟨h1, fun _ => hn, fun habs => by simp_all⟩
    | progressE =>
      simp only [Conn.applyEvent, hnt, Bool.false_eq_true, if_false]
      exact ⟨h1, fun _ => hn, fun habs => by simp_all⟩
    | tick =>
      simp only [Conn.applyEvent, hnt, Bool.false_eq_true, if_false]
      split
      · exact connInv_fail c .timeout ⟨h1, h2, h3⟩ hnt
      · exact ⟨h1, fun _ => hn, fun habs => by simp_all⟩
    | ioError k =>
      simp only [Conn.applyEvent, hnt, Bool.false_eq_true, if_false]
      exact connInv_fail c k ⟨h1, h2, h3⟩ hnt
    | abortEv =>
      simp only [Conn.applyEvent, hnt, Bool.false_eq_true, if_false]
      exact ⟨by simp, by intro hf; simp [ConnState.isTerminal] at hf,
        fun _ => by simp [hn]⟩

theorem connInv_run (c : Conn) (es : List Event) (h : ConnInv c) :
    ConnInv (c.run es) := by
  induction es generalizing c with
  | nil => exact h
  | cons e es ih => rw [run_cons]; exact ih _ (connInv_applyEvent c e h)

/-! ### Timeout: ticks, silence, deadlines -/

/-- A silent second on a non-terminal connection: failure with
`Timeout` exactly when the configured timeout is reached, otherwise
the silence counter advances. -/
theorem applyEvent_tick (c : Conn) (hnt : c.state.isTerminal = false) :
    c.applyEvent .tick =
      (if c.timeoutS ≤ c.silence + 1 then c.fail .timeout
       else { c with silence := c.silence + 1 }) := by
  simp [Conn.applyEvent, hnt]

/-- Ticks that stay below the deadline only advance the silence
counter. -/
theorem run_ticks_below (k : Nat) :
    ∀ c : Conn, c.state.isTerminal = false →
    c.silence + k < c.timeoutS →
    c.run (List.replicate k .tick) = { c with silence := c.silence + k } := by
  induction k with
  | zero =>
    intro c _ _
    show c = _
    cases c; rfl
  | succ k ih =>
    intro c hnt hk
    rw [List.replicate_succ, run_cons, applyEvent_tick c hnt,
      if_neg (by omega)]
    rw [ih { c with silence := c.silence + 1 } hnt (by simp; omega)]
    simp [Nat.add_assoc, Nat.add_comm 1 k]

/-- If a connection is still non-terminal after `n` consecutive silent
ticks, its silence counter grew by `n` and (when `n ≥ 1`) is still
below the configured timeout. -/
theorem run_ticks_nonterminal (n : Nat) :
    ∀ c : Conn,
    (c.run (List.replicate n .tick)).state.isTerminal = false →
    (c.run (List.replicate n .tick)).silence = c.silence + n ∧
    (1 ≤ n → (c.run (List.replicate n .tick)).silence < c.timeoutS) := by
  induction n with
  | zero => exact fun c _ => ⟨rfl, by omega⟩
  | succ n ih =>
    intro c h
    by_cases ht : c.state.isTerminal = true
    · rw [run_of_terminal c _ ht] at h
      simp [ht] at h
    · have hnt : c.state.isTerminal = false := by
        revert ht; cases c.state.isTerminal <;> simp
      rw [List.replicate_succ, run_cons, applyEvent_tick c hnt] at h ⊢
      by_cases hto : c.timeoutS ≤ c.silence + 1
      · rw [if_pos hto] at h
        rw [run_of_terminal _ _ (by simp [Conn.fail, ConnState.isTerminal])] at h
        simp [Conn.fail, ConnState.isTerminal] at h
      · rw [if_neg hto] at h ⊢
        obtain ⟨h1, h2⟩ := ih { c with silence := c.silence + 1 } h
        refine ⟨by rw [h1]; simp; omega, fun _ => ?_⟩
        rcases Nat.eq_zero_or_pos n with hn | hn
        · subst hn
          rw [List.replicate_zero, run_nil]
          simp
          omega
        · have := h2 hn
          simpa using this

/-- After `timeout + 1` consecutive silent ticks the connection is
terminal: an I/O step cannot stay silent past its deadline. -/
theorem ticks_force_terminal (c : Conn) :
    ((c.run (List.replicate (c.timeoutS + 1) .tick)).state.isTerminal)
      = true := by
  by_contra h
  have h' : (c.run (List.replicate (c.timeoutS + 1) .tick)).state.isTerminal
      = false := by
    revert h; cases (c.run (List.replicate (c.timeoutS + 1) .tick)).state.isTerminal <;> simp
  obtain ⟨h1, h2⟩ := run_ticks_nonterminal (c.timeoutS + 1) c h'
  have h3 := h2 (by omega)
  omega

/-! ### Lemmas about the client -/

theorem request_reject_busy (c : Client) (m : Method) (url : String)
    (msg : Message) (hb : c.busy = true) :
    c.request m url msg = (false, c) := by
  simp [Client.request, hb]

theorem request_reject_parse (c : Client) (m : Method) (url : String)
    (msg : Message) (hp : parseUrl url = none) :
    c.request m url msg = (false, c) := by
  by_cases hb : c.busy = true
  · simp [Client.request, hb]
  · simp [Client.request, hb, hp]

/-- An accepted request holds a connection freshly started from the
parsed URL, with the configuration snapshotted at start. -/
theorem request_true_start (c : Client) (m : Method) (url : String)
    (msg : Message) (cn : Conn)
    (hacc : (c.request m url msg).1 = true)
    (hconn : (c.request m url msg).2.conn = some cn) :
    ∃ u, parseUrl url = some u ∧
      (cn = Conn.start .plain m u msg c.timeout_ c.maximumResponseSize_
       ∨ cn = Conn.start (.tls c.verifyFile_ c.verifyPath_) m u msg
           c.timeout_ c.maximumResponseSize_) := by
  by_cases hb : c.busy = true
  · rw [request_reject_busy c m url msg hb] at hacc
    exact absurd hacc (by simp)
  · cases hp : parseUrl url with
    | none =>
      rw [request_reject_parse c m url msg hp] at hacc
      exact absurd hacc (by simp)
    | some u =>
      refine ⟨u, rfl, ?_⟩
      by_cases hh : u.protocol = "http"
      · left
        have heq : c.request m url msg
            = (true, { c with conn := some (Conn.start .plain m u msg c.timeout_ c.maximumResponseSize_) }) := by
          simp [Client.request, hb, hp, hh]
        rw [heq] at hconn
        simp only at hconn
        exact (Option.some.inj hconn).symm
      · by_cases hs2 : u.protocol = "https"
        · right
          have heq : c.request m url msg
              = (true, { c with conn := some (Conn.start (.tls c.verifyFile_ c.verifyPath_) m u msg c.timeout_ c.maximumResponseSize_) }) := by
            simp [Client.request, hb, hp, hh, hs2]
          rw [heq] at hconn
          simp only at hconn
          exact (Option.some.inj hconn).symm
        · have heq : c.request m url msg = (false, c) := by
            simp [Client.request, hb, hp, hh, hs2]
          rw [heq] at hacc
          exact absurd hacc (by simp)

/-- Facts about the connection of an accepted request: it starts in
`Resolving`, has delivered nothing, snapshots the configuration, and
satisfies the connection invariant. -/
theorem request_true_props (c : Client) (m : Method) (url : String)
    (msg : Message) (cn : Conn)
    (hacc : (c.request m url msg).1 = true)
    (hconn : (c.request m url msg).2.conn = some cn) :
    cn.state = ConnState.resolving ∧ cn.notifs = [] ∧ cn.silence = 0
    ∧ cn.buffer = "" ∧ cn.timeoutS = c.timeout_
    ∧ cn.maxSize = c.maximumResponseSize_ ∧ ConnInv cn := by
  obtain ⟨u, _, h | h⟩ := request_true_start c m url msg cn hacc hconn <;>
    subst h <;>
    exact ⟨rfl, rfl, rfl, rfl, rfl, rfl, connInv_start _ _ _ _ _ _⟩

/-- Aborting a connection always leaves it terminal. -/
theorem abort_terminal (cn : Conn) :
    (cn.applyEvent .abortEv).state.isTerminal = true := by
  by_cases h : cn.state.isTerminal = true
  · rw [applyEvent_of_terminal cn _ h]; exact h
  · simp only [Conn.applyEvent, if_neg h]
    rfl

/-- Aborting a non-terminal connection: transport closed, buffer
discarded, exactly the single `Aborted` notification. -/
theorem applyEvent_abort (cn : Conn) (hnt : cn.state.isTerminal = false)
    (hinv : ConnInv cn) :
    cn.applyEvent .abortEv
      = { cn with
          state := ConnState.aborted, transportOpen := false,
          buffer := "", notifs := [Outcome.failed ErrorKind.aborted] } := by
  have h1 : ¬(cn.state.isTerminal = true) := by simp [hnt]
  simp only [Conn.applyEvent, if_neg h1]
  rw [hinv.2.1 hnt]
  rfl

/-- Serializing the caller headers by left fold equals concatenating
the individual header lines in insertion order. -/
theorem headers_foldl (l : List (String × String)) :
    ∀ init : String,
    l.foldl (fun acc h => acc ++ h.1 ++ ": " ++ h.2 ++ crlf) init
      = init ++ concatStrings (l.map (fun h => h.1 ++ ": " ++ h.2 ++ crlf)) := by
  induction l with
  | nil =>
    intro init
    simp [concatStrings]
  | cons h t ih =>
    intro init
    simp only [List.foldl_cons, List.map_cons]
    rw [ih]
    simp [concatStrings, String.append_assoc]

/-- A body trickled in `n` single bytes separated by `k` seconds of
silence, `k` below the timeout, ends with `Done` and its single
success notification — the timeout never bounds the total duration. -/
theorem trickle_done (k n : Nat) :
    ∀ d : Conn, d.state = ConnState.readingBody → d.silence = 0 →
    d.notifs = [] → k < d.timeoutS →
    d.buffer.length + n ≤ d.maxSize →
    (d.run (trickle k n)).state = ConnState.done
    ∧ ∃ m2, (d.run (trickle k n)).notifs = [Outcome.done m2] := by
  induction n with
  | zero =>
    intro d hst hsil hnn hk hbuf
    have h1 : ¬(d.state.isTerminal = true) := by
      simp [hst, ConnState.isTerminal]
    have hstep : d.applyEvent Event.complete
        = { d with
            state := ConnState.done, transportOpen := false, silence := 0,
            notifs := d.notifs ++ [Outcome.done ⟨none, [], d.buffer⟩] } := by
      simp only [Conn.applyEvent, if_neg h1]
      rw [hst]
      simp [nextState]
    simp only [trickle]
    rw [run_cons, run_nil, hstep]
    exact ⟨rfl, ⟨⟨none, [], d.buffer⟩, by simp [hnn]⟩⟩
  | succ n ih =>
    intro d hst hsil hnn hk hbuf
    have hnt : d.state.isTerminal = false := by
      simp [hst, ConnState.isTerminal]
    have hticks : d.run (List.replicate k Event.tick)
        = { d with silence := d.silence + k } :=
      run_ticks_below k d hnt (by omega)
    have h1 : ¬(({ d with silence := d.silence + k } : Conn).state.isTerminal
        = true) := by simp [hst, ConnState.isTerminal]
    have hlen : ("." : String).length = 1 := rfl
    have happ : ({ d with silence := d.silence + k } : Conn).applyEvent
          (Event.bytesE ".")
        = { d with buffer := d.buffer ++ ".", silence := 0 } := by
      simp only [Conn.applyEvent, if_neg h1]
      rw [if_neg (by decide : ¬(("." : String) = ""))]
      rw [if_pos (by simp [hst, ConnState.isReading])]
      rw [if_neg (by simp [hlen]; omega)]
    simp only [trickle]
    rw [run_append, hticks, run_cons, happ]
    refine ih { d with buffer := d.buffer ++ ".", silence := 0 }
      (by simp [hst]) rfl (by simp [hnn]) (by simpa using hk) ?_
    simp only [String.length_append]
    omega

/-! ### Claims -/

/-- Claim C1: for every accepted request (a `get`/`post`/`request`
call that returned `true`), exactly one terminal notification is
delivered via the `done()` signal — a successful `Message` or an error
kind — and only after the Connection has reached a terminal state,
including after any `abort()` (which may occur anywhere in the event
trace); no second or partial notification ever occurs: along every
trace the notification list is empty before a terminal state and a
singleton from then on, and every trace extended by enough silent
ticks ends terminal with exactly one notification. -/
theorem accepted_request_exactly_one_notification
    (c : Client) (m : Method) (url : String) (msg : Message) (cn : Conn)
    (hacc : (c.request m url msg).1 = true)
    (hconn : (c.request m url msg).2.conn = some cn) :
    (∀ tr : List Event,
      ((cn.run tr).notifs = [] ↔ (cn.run tr).state.isTerminal = false)
      ∧ ((cn.run tr).state.isTerminal = true →
          (cn.run tr).notifs.length = 1)
      ∧ (cn.run tr).notifs.length ≤ 1)
    ∧ (∀ tr : List Event,
      ((cn.run (tr ++ List.replicate (cn.timeoutS + 1)
          Event.tick)).state.isTerminal = true)
      ∧ (cn.run (tr ++ List.replicate (cn.timeoutS + 1)
          Event.tick)).notifs.length = 1) := by
  have hinv : ConnInv cn :=
    (request_true_props c m url msg cn hacc hconn).2.2.2.2.2.2
  constructor
  · intro tr
    obtain ⟨_h1, h2, h3⟩ := connInv_run cn tr hinv
    refine ⟨⟨fun hn => ?_, h2⟩, fun ht => (h3 ht).1, ?_⟩
    · by_contra hbad
      have ht : (cn.run tr).state.isTerminal = true := by
        revert hbad; cases (cn.run tr).state.isTerminal <;> simp
      have hlen := (h3 ht).1
      rw [hn] at hlen
      simp at hlen
    · cases hterm : (cn.run tr).state.isTerminal
      · rw [h2 hterm]; simp
      · have hlen := (h3 hterm).1
        omega
  · intro tr
    rw [run_append]
    have hts : (cn.run tr).timeoutS = cn.timeoutS := (run_config cn tr).1
    have hterm := ticks_force_terminal (cn.run tr)
    rw [hts] at hterm
    have hinv2 : ConnInv ((cn.run tr).run
        (List.replicate (cn.timeoutS + 1) Event.tick)) :=
      connInv_run _ _ (connInv_run cn tr hinv)
    exact ⟨hterm, (hinv2.2.2 hterm).1⟩

theorem accepted_request_exactly_one_notification_witness :
    ((Conn.start Transport.plain Method.Get ⟨"http", "h", 80, "/"⟩
        Message.empty 10 65536).run [Event.abortEv]).notifs.length = 1 := by
  have h := accepted_request_exactly_one_notification Client.init
    Method.Get "http://h" Message.empty
    (Conn.start Transport.plain Method.Get ⟨"http", "h", 80, "/"⟩
      Message.empty 10 65536) (by decide) (by decide)
  exact (h.1 [Event.abortEv]).2.1 (by decide)

/-- Claim C2: a `get`/`post`/`request` call returns `true` exactly
when the request is accepted (a Connection has been created and
started, in state `Resolving`, having notified nothing); it returns
`false` with the Client state unchanged — hence no notification ever
delivered for that call — exactly when the Client is already
processing a request or the URL fails to parse (in this embedding an
unsupported scheme is a parse failure, spec section 4.1). -/
theorem request_accept_reject (c : Client) (m : Method) (url : String)
    (msg : Message) :
    ((c.request m url msg).1 = false
      ↔ (c.busy = true ∨ parseUrl url = none))
    ∧ ((c.request m url msg).1 = false → (c.request m url msg).2 = c)
    ∧ ((c.request m url msg).1 = true →
       ∃ cn, (c.request m url msg).2.conn = some cn
         ∧ cn.state = ConnState.resolving ∧ cn.notifs = []
         ∧ cn.transportOpen = true) := by
  by_cases hb : c.busy = true
  · rw [request_reject_busy c m url msg hb]
    exact ⟨⟨fun _ => Or.inl hb, fun _ => rfl⟩, fun _ => rfl,
      fun habs => absurd habs (by simp)⟩
  · cases hp : parseUrl url with
    | none =>
      rw [request_reject_parse c m url msg hp]
      exact ⟨⟨fun _ => Or.inr rfl, fun _ => rfl⟩, fun _ => rfl,
        fun habs => absurd habs (by simp)⟩
    | some u =>
      have hneg : ¬(c.busy = true ∨ (some u : Option URL) = none) := by
        rintro (hor | hor)
        · exact hb hor
        · exact absurd hor (by simp)
      rcases (parseUrl_protocol_host url u hp).1 with hh | hh
      · have heq : c.request m url msg
            = (true, { c with conn := some (Conn.start .plain m u msg c.timeout_ c.maximumResponseSize_) }) := by
          simp [Client.request, hb, hp, hh]
        rw [heq]
        exact ⟨⟨fun hf => absurd hf (by simp), fun hor => absurd hor hneg⟩,
          fun hf => absurd hf (by simp),
          fun _ => ⟨_, rfl, rfl, rfl, rfl⟩⟩
      · have hh2 : ¬(u.protocol = "http") := by
          rw [hh]; decide
        have heq : c.request m url msg
            = (true, { c with conn := some (Conn.start (.tls c.verifyFile_ c.verifyPath_) m u msg c.timeout_ c.maximumResponseSize_) }) := by
          simp [Client.request, hb, hp, hh, hh2]
        rw [heq]
        exact ⟨⟨fun hf => absurd hf (by simp), fun hor => absurd hor hneg⟩,
          fun hf => absurd hf (by simp),
          fun _ => ⟨_, rfl, rfl, rfl, rfl⟩⟩

theorem request_accept_reject_witness :
    (Client.init.request Method.Get "ftp://example.com" Message.empty).1
        = false
    ∧ (Client.init.request Method.Get "ftp://example.com" Message.empty).2
        = Client.init := by
  have h := request_accept_reject Client.init Method.Get
    "ftp://example.com" Message.empty
  have hf : (Client.init.request Method.Get "ftp://example.com"
      Message.empty).1 = false := h.1.mpr (Or.inr (by decide))
  exact ⟨hf, h.2.1 hf⟩

/-- Claim C3: during response reception the accumulated byte count
always satisfies `buffer.length ≤ maximumResponseSize`; an
accumulation during header or body reading that would push the count
past the cap produces `ResponseTooLarge` with the transport closed and
the partial buffer discarded — the single notification is the failure,
never a truncated `Done`. -/
theorem response_size_capped (c : Client) (m : Method) (url : String)
    (msg : Message) (cn : Conn)
    (hacc : (c.request m url msg).1 = true)
    (hconn : (c.request m url msg).2.conn = some cn) :
    (∀ tr : List Event,
      (cn.run tr).buffer.length ≤ c.maximumResponseSize_)
    ∧ (∀ (tr : List Event) (chunk : String),
        chunk ≠ "" →
        (cn.run tr).state.isReading = true →
        c.maximumResponseSize_ < (cn.run tr).buffer.length + chunk.length →
        ((cn.run tr).applyEvent (Event.bytesE chunk)).state
            = ConnState.failed ErrorKind.responseTooLarge
        ∧ ((cn.run tr).applyEvent (Event.bytesE chunk)).buffer = ""
        ∧ ((cn.run tr).applyEvent (Event.bytesE chunk)).transportOpen
            = false
        ∧ ((cn.run tr).applyEvent (Event.bytesE chunk)).notifs
            = [Outcome.failed ErrorKind.responseTooLarge]) := by
  obtain ⟨_, _, _, _, _, hmax, hinv⟩ :=
    request_true_props c m url msg cn hacc hconn
  constructor
  · intro tr
    have h1 := (connInv_run cn tr hinv).1
    rw [(run_config cn tr).2.1, hmax] at h1
    exact h1
  · intro tr chunk hch hread hover
    have hnt : (cn.run tr).state.isTerminal = false :=
      isReading_not_terminal _ hread
    have h1 : ¬((cn.run tr).state.isTerminal = true) := by simp [hnt]
    have hnn : (cn.run tr).notifs = [] := (connInv_run cn tr hinv).2.1 hnt
    have hmax2 : (cn.run tr).maxSize = c.maximumResponseSize_ := by
      rw [(run_config cn tr).2.1, hmax]
    have hstep : (cn.run tr).applyEvent (Event.bytesE chunk)
        = (cn.run tr).fail .responseTooLarge := by
      simp only [Conn.applyEvent, if_neg h1]
      rw [if_neg hch, if_pos hread, if_pos (by rw [hmax2]; exact hover)]
    rw [hstep]
    exact ⟨rfl, rfl, rfl, by simp [Conn.fail, hnn]⟩

theorem response_size_capped_witness :
    (((Conn.start Transport.plain Method.Get ⟨"http", "h", 80, "/"⟩
        Message.empty 10 4).run
          [Event.complete, Event.complete, Event.complete]).applyEvent
            (Event.bytesE "12345")).notifs
      = [Outcome.failed ErrorKind.responseTooLarge] := by
  have h := response_size_capped (Client.init.setMaximumResponseSize 4)
    Method.Get "http://h" Message.empty
    (Conn.start Transport.plain Method.Get ⟨"http", "h", 80, "/"⟩
      Message.empty 10 4) (by decide) (by decide)
  exact (h.2 [Event.complete, Event.complete, Event.complete] "12345"
    (by decide) (by decide) (by decide)).2.2.2

/-- Claim C4: for every I/O step, a silent second fails with `Timeout`
exactly when the configured timeout elapses with no progress on that
step; any partial progress (each byte exchanged, and each step
transition) resets that step's own deadline to zero, so the timeout
bounds inter-progress silence and never the total request duration;
in particular a body trickled with gaps shorter than the timeout
completes with `Done`, not `Timeout`. -/
theorem timeout_bounds_silence (c : Client) (m : Method) (url : String)
    (msg : Message) (cn : Conn)
    (hacc : (c.request m url msg).1 = true)
    (hconn : (c.request m url msg).2.conn = some cn) :
    (∀ tr : List Event, (cn.run tr).state.isTerminal = false →
      (c.timeout_ ≤ (cn.run tr).silence + 1 →
        (cn.run tr).applyEvent Event.tick
          = (cn.run tr).fail ErrorKind.timeout)
      ∧ ((cn.run tr).silence + 1 < c.timeout_ →
        (cn.run tr).applyEvent Event.tick
          = { (cn.run tr) with silence := (cn.run tr).silence + 1 }))
    ∧ (∀ tr : List Event, (cn.run tr).state.isTerminal = false →
        ((cn.run tr).applyEvent Event.progressE).silence = 0
        ∧ ((cn.run tr).applyEvent Event.complete).silence = 0
        ∧ ∀ chunk : String, chunk ≠ "" →
            (cn.run tr).state.isReading = true →
            (cn.run tr).buffer.length + chunk.length
              ≤ c.maximumResponseSize_ →
            (cn.run tr).applyEvent (Event.bytesE chunk)
              = { (cn.run tr) with
                  buffer := (cn.run tr).buffer ++ chunk, silence := 0 })
    ∧ (∀ (tr : List Event) (k n : Nat),
        (cn.run tr).state = ConnState.readingBody →
        (cn.run tr).silence = 0 →
        k + 1 ≤ c.timeout_ →
        (cn.run tr).buffer.length + n ≤ c.maximumResponseSize_ →
        ((cn.run tr).run (trickle k n)).state = ConnState.done
        ∧ ∃ m2, ((cn.run tr).run (trickle k n)).notifs
            = [Outcome.done m2]) := by
  obtain ⟨_, _, _, _, htime, hmax, hinv⟩ :=
    request_true_props c m url msg cn hacc hconn
  have hts : ∀ tr : List Event, (cn.run tr).timeoutS = c.timeout_ := by
    intro tr; rw [(run_config cn tr).1, htime]
  have hms : ∀ tr : List Event,
      (cn.run tr).maxSize = c.maximumResponseSize_ := by
    intro tr; rw [(run_config cn tr).2.1, hmax]
  refine ⟨?_, ?_, ?_⟩
  · intro tr hnt
    have h1 : ¬((cn.run tr).state.isTerminal = true) := by simp [hnt]
    constructor
    · intro hle
      simp only [Conn.applyEvent, if_neg h1]
      rw [if_pos (by rw [hts tr]; exact hle)]
    · intro hlt
      simp only [Conn.applyEvent, if_neg h1]
      rw [if_neg (by rw [hts tr]; omega)]
  · intro tr hnt
    have h1 : ¬((cn.run tr).state.isTerminal = true) := by simp [hnt]
    refine ⟨by simp only [Conn.applyEvent, if_neg h1], ?_, ?_⟩
    · simp only [Conn.applyEvent, if_neg h1]
      split <;> rfl
    · intro chunk hch hread hfit
      simp only [Conn.applyEvent, if_neg h1]
      rw [if_neg hch, if_pos hread, if_neg (by rw [hms tr]; omega)]
  · intro tr k n hst hsil hk hbuf
    have hnt : (cn.run tr).state.isTerminal = false := by
      simp [hst, ConnState.isTerminal]
    exact trickle_done k n (cn.run tr) hst hsil
      ((connInv_run cn tr hinv).2.1 hnt) (by rw [hts tr]; omega)
      (by rw [hms tr]; exact hbuf)

theorem timeout_bounds_silence_witness :
    (((Conn.start Transport.plain Method.Get ⟨"http", "h", 80, "/"⟩
        Message.empty 10 65536).run
          [Event.complete, Event.complete, Event.complete,
           Event.complete, Event.complete]).run (trickle 3 2)).state
      = ConnState.done := by
  have h := timeout_bounds_silence Client.init Method.Get "http://h"
    Message.empty
    (Conn.start Transport.plain Method.Get ⟨"http", "h", 80, "/"⟩
      Message.empty 10 65536) (by decide) (by decide)
  exact (h.2.2 [Event.complete, Event.complete, Event.complete,
    Event.complete, Event.complete] 3 2 (by decide) (by decide)
    (by decide) (by decide)).1

/-- Claim C5: URL parsing succeeds only for schemes `http` / `https`
(matched case-insensitively) with a non-empty host; on success a URL
with no explicit port gets port 80 (`http`) or 443 (`https`) and a URL
with no path component gets path `"/"`; a malformed scheme, missing
host or non-numeric port makes parsing fail; the path is passed
through verbatim (no percent-decoding or normalization). -/
theorem parseUrl_spec :
    (∀ (s : String) (u : URL), parseUrl s = some u →
      (u.protocol = "http" ∨ u.protocol = "https") ∧ u.host ≠ "")
    ∧ (∀ sch host path : String,
        toLowerList sch.data = "http".data →
        host ≠ "" → ':' ∉ host.data → '/' ∉ host.data →
        (path = "" ∨ ∃ r, path.data = '/' :: r) →
        parseUrl (sch ++ "://" ++ host ++ path)
          = some ⟨"http", host, 80, if path = "" then "/" else path⟩)
    ∧ (∀ sch host path : String,
        toLowerList sch.data = "https".data →
        host ≠ "" → ':' ∉ host.data → '/' ∉ host.data →
        (path = "" ∨ ∃ r, path.data = '/' :: r) →
        parseUrl (sch ++ "://" ++ host ++ path)
          = some ⟨"https", host, 443, if path = "" then "/" else path⟩)
    ∧ (∀ sch host portS : String,
        (toLowerList sch.data = "http".data
          ∨ toLowerList sch.data = "https".data) →
        host ≠ "" → ':' ∉ host.data → '/' ∉ host.data →
        '/' ∉ portS.data →
        (∃ ch, ch ∈ portS.data ∧ ch.isDigit = false) →
        parseUrl (sch ++ "://" ++ host ++ ":" ++ portS) = none) := by
  refine ⟨parseUrl_protocol_host, ?_, ?_, ?_⟩
  · intro sch host path hl hh hc hs hp
    have hb := parseUrl_build sch host path 80
      (by rw [hl]; decide) hh hc hs hp
    rw [hb, hl]
  · intro sch host path hl hh hc hs hp
    have hb := parseUrl_build sch host path 443
      (by rw [hl]; decide) hh hc hs hp
    rw [hb, hl]
  · intro sch host portS hl _hh hc hs hsp hbad
    rcases hl with hl | hl
    · exact parseUrl_bad_port sch host portS 80
        (by rw [hl]; decide) hc hs hsp hbad
    · exact parseUrl_bad_port sch host portS 443
        (by rw [hl]; decide) hc hs hsp hbad

theorem parseUrl_spec_witness :
    parseUrl ("HtTp" ++ "://" ++ "example.com" ++ "")
      = some ⟨"http", "example.com", 80, "/"⟩ := by
  have h := parseUrl_spec.2.1 "HtTp" "example.com" "" (by decide)
    (by decide) (by decide) (by decide) (Or.inl rfl)
  simpa using h

/-- Claim C6: `abort()` on a request in any non-terminal state closes
the transport immediately, discards the buffer, and reports `Aborted`
exactly once; repeated aborts and aborts after completion are no-ops,
as is an abort on an idle client. -/
theorem abort_semantics :
    (∀ c : Client, c.conn = none → c.abort = c)
    ∧ (∀ (c : Client) (cn : Conn), c.conn = some cn →
        cn.state.isTerminal = true → c.abort = c)
    ∧ (∀ (c : Client) (cn : Conn), c.conn = some cn →
        cn.state.isTerminal = false → ConnInv cn →
        (c.abort).conn = some
          { cn with
            state := ConnState.aborted, transportOpen := false,
            buffer := "", notifs := [Outcome.failed ErrorKind.aborted] })
    ∧ (∀ c : Client, (c.abort).abort = c.abort) := by
  refine ⟨?_, ?_, ?_, ?_⟩
  · intro c h
    cases c
    simp_all [Client.abort]
  · intro c cn h ht
    cases c
    simp_all [Client.abort, applyEvent_of_terminal _ _ ht]
  · intro c cn h hnt hinv
    simp [Client.abort, h, applyEvent_abort cn hnt hinv]
  · intro c
    cases hc : c.conn with
    | none => simp [Client.abort, hc]
    | some cn =>
      simp [Client.abort, hc,
        applyEvent_of_terminal _ _ (abort_terminal cn)]

theorem abort_semantics_witness :
    (({ Client.init with conn := some (Conn.start Transport.plain
        Method.Get ⟨"http", "h", 80, "/"⟩ Message.empty 10 65536) }
      : Client).abort).conn
      = some { Conn.start Transport.plain Method.Get ⟨"http", "h", 80, "/"⟩
            Message.empty 10 65536 with
          state := ConnState.aborted, transportOpen := false,
          buffer := "", notifs := [Outcome.failed ErrorKind.aborted] } := by
  exact abort_semantics.2.2.1 _ _ rfl (by decide) (by decide)

/-- Claim C7: a newly constructed Client has timeout 10 seconds and
maximum response size 64 KiB; `setTimeout` and
`setMaximumResponseSize` change these values without touching the
in-flight connection, whose snapshotted configuration never changes
during its run — so a change takes effect only for requests started
after the call, which snapshot the current values. -/
theorem config_defaults_and_snapshot :
    Client.init.timeout = 10
    ∧ Client.init.maximumResponseSize = 65536
    ∧ (∀ (c : Client) (s : Nat),
        (c.setTimeout s).timeout = s
        ∧ (c.setTimeout s).maximumResponseSize = c.maximumResponseSize
        ∧ (c.setTimeout s).conn = c.conn)
    ∧ (∀ (c : Client) (b : Nat),
        (c.setMaximumResponseSize b).maximumResponseSize = b
        ∧ (c.setMaximumResponseSize b).timeout = c.timeout
        ∧ (c.setMaximumResponseSize b).conn = c.conn)
    ∧ (∀ (c : Client) (m : Method) (url : String) (msg : Message)
        (cn : Conn),
        (c.request m url msg).1 = true →
        (c.request m url msg).2.conn = some cn →
        cn.timeoutS = c.timeout ∧ cn.maxSize = c.maximumResponseSize)
    ∧ (∀ (cn : Conn) (tr : List Event),
        (cn.run tr).timeoutS = cn.timeoutS
        ∧ (cn.run tr).maxSize = cn.maxSize) := by
  refine ⟨rfl, rfl, fun c s => ⟨rfl, rfl, rfl⟩, fun c b => ⟨rfl, rfl, rfl⟩,
    ?_, fun cn tr => ⟨(run_config cn tr).1, (run_config cn tr).2.1⟩⟩
  intro c m url msg cn hacc hconn
  obtain ⟨_, _, _, _, h5, h6, _⟩ :=
    request_true_props c m url msg cn hacc hconn
  exact ⟨h5, h6⟩

theorem config_defaults_and_snapshot_witness :
    (Conn.start Transport.plain Method.Get ⟨"http", "h", 80, "/"⟩
        Message.empty 3 65536).timeoutS
      = (Client.init.setTimeout 3).timeout := by
  exact (config_defaults_and_snapshot.2.2.2.2.1
    (Client.init.setTimeout 3) Method.Get "http://h" Message.empty
    (Conn.start Transport.plain Method.Get ⟨"http", "h", 80, "/"⟩
      Message.empty 3 65536) (by decide) (by decide)).1

/-- Claim C8: `serializeRequest` produces exactly the request line
`METHOD path HTTP/1.1`, then a `Host` header derived from the URL,
then the caller-supplied headers in their insertion order, then a
`Content-Length` header when (and only when) the body is non-empty,
then a blank line, then the body. -/
theorem serializeRequest_layout (m : Method) (u : URL) (msg : Message) :
    serializeRequest m u msg
      = (methodText m ++ " " ++ u.path ++ " HTTP/1.1" ++ crlf)
        ++ ("Host: " ++ u.host ++ crlf)
        ++ concatStrings
            (msg.headers.map (fun h => h.1 ++ ": " ++ h.2 ++ crlf))
        ++ (if msg.body = "" then ""
            else "Content-Length: " ++ toString msg.body.length ++ crlf)
        ++ crlf ++ msg.body := by
  simp only [serializeRequest]
  rw [headers_foldl]
  by_cases hb : msg.body = ""
  · simp [hb, String.append_assoc]
  · simp [hb, String.append_assoc]

/-- Claim C9: destroying a Client while busy aborts the in-flight
request — the destructor's effect on the pending Connection is exactly
that of an explicit `abort()` call, and on a busy non-terminal
connection it leaves the aborted connection with its single `Aborted`
notification. -/
theorem destructor_aborts_like_abort :
    (∀ c : Client, c.destroy = (c.abort).conn)
    ∧ (∀ c : Client, c.conn = none → c.destroy = none)
    ∧ (∀ (c : Client) (cn : Conn), c.conn = some cn →
        cn.state.isTerminal = false → ConnInv cn →
        c.destroy = some
          { cn with
            state := ConnState.aborted, transportOpen := false,
            buffer := "",
            notifs := [Outcome.failed ErrorKind.aborted] }) := by
  refine ⟨?_, ?_, ?_⟩
  · intro c
    cases hc : c.conn with
    | none => simp [Client.destroy, Client.abort, hc]
    | some cn => simp [Client.destroy, Client.abort, hc]
  · intro c h
    simp [Client.destroy, h]
  · intro c cn h hnt hinv
    simp [Client.destroy, h, applyEvent_abort cn hnt hinv]

theorem destructor_aborts_like_abort_witness :
    ({ Client.init with conn := some (Conn.start Transport.plain
        Method.Get ⟨"http", "h", 80, "/"⟩ Message.empty 10 65536) }
      : Client).destroy
      = some { Conn.start Transport.plain Method.Get ⟨"http", "h", 80, "/"⟩
            Message.empty 10 65536 with
          state := ConnState.aborted, transportOpen := false,
          buffer := "", notifs := [Outcome.failed ErrorKind.aborted] } := by
  exact destructor_aborts_like_abort.2.2 _ _ rfl (by decide) (by decide)

/-- Claim C10: the SSL verification settings are inert for plaintext
requests: two runs that differ only in the values passed to
`setSslVerifyFile` / `setSslVerifyPath` behave identically on an
`http://` (non-`https`) request — same boolean return, same created
connection, and the same delivered notifications along every event
trace. -/
theorem ssl_settings_inert_for_plain (c : Client)
    (f1 p1 f2 p2 : String) (m : Method) (url : String) (msg : Message)
    (u : URL) (hparse : parseUrl url = some u)
    (hhttp : u.protocol = "http") :
    (((c.setSslVerifyFile f1).setSslVerifyPath p1).request m url msg).1
      = (((c.setSslVerifyFile f2).setSslVerifyPath p2).request m url msg).1
    ∧ (((c.setSslVerifyFile f1).setSslVerifyPath p1).request
        m url msg).2.conn
      = (((c.setSslVerifyFile f2).setSslVerifyPath p2).request
        m url msg).2.conn
    ∧ ∀ tr : List Event,
        Option.map (fun cn => (cn.run tr).notifs)
          ((((c.setSslVerifyFile f1).setSslVerifyPath p1).request
            m url msg).2.conn)
        = Option.map (fun cn => (cn.run tr).notifs)
          ((((c.setSslVerifyFile f2).setSslVerifyPath p2).request
            m url msg).2.conn) := by
  have hb1 : ((c.setSslVerifyFile f1).setSslVerifyPath p1).busy
      = c.busy := rfl
  have hb2 : ((c.setSslVerifyFile f2).setSslVerifyPath p2).busy
      = c.busy := rfl
  by_cases hb : c.busy = true
  · have r1 := request_reject_busy
      ((c.setSslVerifyFile f1).setSslVerifyPath p1) m url msg
      (hb1.trans hb)
    have r2 := request_reject_busy
      ((c.setSslVerifyFile f2).setSslVerifyPath p2) m url msg
      (hb2.trans hb)
    rw [r1, r2]
    exact ⟨rfl, rfl, fun tr => rfl⟩
  · have hbf : c.busy = false := by revert hb; cases c.busy <;> simp
    have e1 : (c.setSslVerifyFile f1).setSslVerifyPath p1
        = { c with verifyFile_ := f1, verifyPath_ := p1 } := rfl
    have e2 : (c.setSslVerifyFile f2).setSslVerifyPath p2
        = { c with verifyFile_ := f2, verifyPath_ := p2 } := rfl
    have hbu1 : ({ c with verifyFile_ := f1, verifyPath_ := p1 }
        : Client).busy = c.busy := rfl
    have hbu2 : ({ c with verifyFile_ := f2, verifyPath_ := p2 }
        : Client).busy = c.busy := rfl
    have r1 : ({ c with verifyFile_ := f1, verifyPath_ := p1 }
          : Client).request m url msg
        = (true, { c with verifyFile_ := f1, verifyPath_ := p1, conn := some (Conn.start .plain m u msg c.timeout_ c.maximumResponseSize_) }) := by
      simp [Client.request, hbu1, hbf, hparse, hhttp]
    have r2 : ({ c with verifyFile_ := f2, verifyPath_ := p2 }
          : Client).request m url msg
        = (true, { c with verifyFile_ := f2, verifyPath_ := p2, conn := some (Conn.start .plain m u msg c.timeout_ c.maximumResponseSize_) }) := by
      simp [Client.request, hbu2, hbf, hparse, hhttp]
    rw [e1, e2, r1, r2]
    exact ⟨rfl, rfl, fun tr => rfl⟩

theorem ssl_settings_inert_for_plain_witness :
    (((Client.init.setSslVerifyFile "a").setSslVerifyPath "b").request
        Method.Get "http://h" Message.empty).2.conn
      = (((Client.init.setSslVerifyFile "x").setSslVerifyPath "y").request
        Method.Get "http://h" Message.empty).2.conn := by
  exact (ssl_settings_inert_for_plain Client.init "a" "b" "x" "y"
    Method.Get "http://h" Message.empty ⟨"http", "h", 80, "/"⟩
    (by decide) rfl).2.1

end WtHttp
